import Mathlib

/-!
Verification of the operation/visualization core of the Linux disk
defragmenter GUI (single source file
`usr/share/linux-disk-birlestirici/Linux-Disk-Birleştirici.py`).

The development shallowly embeds, from the Python source:
  * the fragmentation-score parser of `CheckDefragWorker.run` (lines 224-238),
  * the simulated disk-map generator `DiskMapWidget.generate_dummy_map_data`
    (lines 52-127),
  * the two background workers `DefragWorker.run` (lines 169-201) and
    `CheckDefragWorker.run` (lines 218-245), with the behaviour of the external
    process and of cooperative cancellation as explicit parameters,
  * the controller state machine of `DiskDefragmenterApp` (enable/disable of
    actions, selection handling, `start_analysis`, `start_defrag`,
    completion/error handlers, `reset_ui`).

Python strings are modelled as `List Char`; analyzer stdout is modelled
already split into lines (the `splitlines` step of line 226).  Machine
integers are `Int`/`Nat` (Python ints are unbounded, so no wrap-around is
needed).
-/

/-! ## Score parser (CheckDefragWorker.run, lines 224-238)

The Python loop is

```
score = -1
found_score_line = False
for line in lines:
    if "Fragmentation score" in line:
        match = re.search("Fragmentation score\\s*(\\d+)", line)
        if match:
            score = int(match.group(1))
            found_score_line = True
    if "No fragmentation found" in line and not found_score_line:
        score = 0
```

`searchScore` models `re.search` for this fixed pattern: the pattern matches
at the first position where the literal marker is followed by optional
whitespace and at least one digit; the captured group is the maximal digit
run there.  (`\s*` sits between the disjoint classes "whitespace" and
"digit", so regex backtracking cannot produce any other match.)
-/

def scoreMarker : List Char := "Fragmentation score".data

def nffMarker : List Char := "No fragmentation found".data

/-- Python regex `\s` over the ASCII range: space, tab, newline, carriage
return, vertical tab, form feed. -/
def isPySpace (c : Char) : Bool :=
  c = ' ' || c = '\t' || c = '\n' || c = '\r' || c = Char.ofNat 11 || c = Char.ofNat 12

/-- Decimal value of a digit run, as computed by Python `int`. -/
def digitsVal (ds : List Char) : Nat :=
  ds.foldl (fun a c => a * 10 + (c.toNat - 48)) 0

/-- Value of the leading maximal digit run, if non-empty (the `(\d+)` group). -/
def leadingDigitsVal (s : List Char) : Option Nat :=
  match s.takeWhile Char.isDigit with
  | [] => none
  | ds => some (digitsVal ds)

/-- Attempt to match `Fragmentation score\s*(\d+)` at the start of `s`. -/
def matchAt (s : List Char) : Option Nat :=
  if scoreMarker.isPrefixOf s then
    leadingDigitsVal ((s.drop scoreMarker.length).dropWhile isPySpace)
  else none

/-- `re.search`: try to match at each position, left to right. -/
def searchScore : List Char → Option Nat
  | [] => none
  | c :: rest =>
    match matchAt (c :: rest) with
    | some n => some n
    | none => searchScore rest

/-- Python substring test `pat in s`. -/
def containsSub (pat : List Char) : List Char → Bool
  | [] => pat.isEmpty
  | c :: rest => pat.isPrefixOf (c :: rest) || containsSub pat rest

/-- One iteration of the parser loop; the state is `(score, found_score_line)`. -/
def processLine (st : Int × Bool) (line : List Char) : Int × Bool :=
  let st1 :=
    if containsSub scoreMarker line then
      match searchScore line with
      | some n => ((n : Int), true)
      | none => st
    else st
  if containsSub nffMarker line && !st1.2 then (0, st1.2) else st1

/-- The score extracted from the analyzer stdout (given as a list of lines),
starting from `score = -1`, `found_score_line = False`. -/
def parseScore (lines : List (List Char)) : Int :=
  (lines.foldl processLine (-1, false)).1

/-- The value captured on the last line where the score regex matches. -/
def lastScoreMatch : List (List Char) → Option Nat
  | [] => none
  | l :: rest =>
    match lastScoreMatch rest with
    | some v => some v
    | none => searchScore l

/-- Whether some line contains the no-fragmentation marker. -/
def hasNFF (lines : List (List Char)) : Bool :=
  lines.any (containsSub nffMarker)

lemma matchAt_isPrefix {s : List Char} {n : Nat} (h : matchAt s = some n) :
    scoreMarker.isPrefixOf s = true := by
  unfold matchAt at h
  split at h
  · assumption
  · exact absurd h (by simp)

lemma searchScore_containsSub {s : List Char} {n : Nat}
    (h : searchScore s = some n) : containsSub scoreMarker s = true := by
  induction s with
  | nil => simp [searchScore] at h
  | cons c rest ih =>
    unfold searchScore at h
    unfold containsSub
    cases hm : matchAt (c :: rest) with
    | some m => simp [matchAt_isPrefix hm]
    | none =>
      rw [hm] at h
      simp [ih h]

lemma processLine_of_search_none {st : Int × Bool} {l : List Char}
    (h : searchScore l = none) :
    processLine st l =
      (if containsSub nffMarker l && !st.2 then (0, st.2) else st) := by
  unfold processLine
  rw [h]
  simp

lemma processLine_of_search_some {st : Int × Bool} {l : List Char} {n : Nat}
    (h : searchScore l = some n) :
    processLine st l = ((n : Int), true) := by
  unfold processLine
  rw [searchScore_containsSub h]
  rw [h]
  simp

lemma foldl_none_true (lines : List (List Char)) :
    ∀ s : Int, lastScoreMatch lines = none →
      lines.foldl processLine (s, true) = (s, true) := by
  induction lines with
  | nil => intro s _; rfl
  | cons l rest ih =>
    intro s h
    unfold lastScoreMatch at h
    cases hr : lastScoreMatch rest with
    | some v => rw [hr] at h; exact absurd h (by simp)
    | none =>
      rw [hr] at h
      rw [List.foldl_cons, processLine_of_search_none h]
      have hred : (if containsSub nffMarker l && !(s, true).2 then ((0 : Int), (s, true).2)
          else (s, true)) = (s, true) := by simp
      rw [hred]
      exact ih s hr

lemma foldl_none_false (lines : List (List Char)) :
    ∀ s : Int, lastScoreMatch lines = none →
      lines.foldl processLine (s, false) =
        ((if hasNFF lines then 0 else s), false) := by
  induction lines with
  | nil => intro s _; simp [hasNFF]
  | cons l rest ih =>
    intro s h
    unfold lastScoreMatch at h
    cases hr : lastScoreMatch rest with
    | some v => rw [hr] at h; exact absurd h (by simp)
    | none =>
      rw [hr] at h
      rw [List.foldl_cons, processLine_of_search_none h]
      have hany : hasNFF (l :: rest) = (containsSub nffMarker l || hasNFF rest) := by
        simp [hasNFF]
      by_cases hl : containsSub nffMarker l = true
      · have hred : (if containsSub nffMarker l && !(s, false).2 then ((0 : Int), (s, false).2)
            else (s, false)) = ((0 : Int), false) := by rw [hl]; rfl
        rw [hred, ih 0 hr, hany, hl]
        by_cases hrest : hasNFF rest = true <;> simp [hrest]
      · have hl' : containsSub nffMarker l = false := by
          revert hl; cases containsSub nffMarker l <;> simp
        have hred : (if containsSub nffMarker l && !(s, false).2 then ((0 : Int), (s, false).2)
            else (s, false)) = (s, false) := by rw [hl']; rfl
        rw [hred, ih s hr, hany, hl']
        simp

lemma foldl_some (lines : List (List Char)) :
    ∀ (st : Int × Bool) (v : Nat), lastScoreMatch lines = some v →
      lines.foldl processLine st = ((v : Int), true) := by
  induction lines with
  | nil => intro st v h; simp [lastScoreMatch] at h
  | cons l rest ih =>
    intro st v h
    unfold lastScoreMatch at h
    cases hr : lastScoreMatch rest with
    | some w =>
      rw [hr] at h
      have hv : w = v := by simpa using h
      subst hv
      rw [List.foldl_cons]
      exact ih _ w hr
    | none =>
      rw [hr] at h
      rw [List.foldl_cons, processLine_of_search_some h]
      exact foldl_none_true rest (v : Int) hr

lemma lastScoreMatch_none_of (lines : List (List Char))
    (h : ∀ l ∈ lines, containsSub scoreMarker l = false) :
    lastScoreMatch lines = none := by
  induction lines with
  | nil => rfl
  | cons l rest ih =>
    unfold lastScoreMatch
    rw [ih (fun x hx => h x (List.mem_cons_of_mem l hx))]
    cases hs : searchScore l with
    | none => rfl
    | some n =>
      have := searchScore_containsSub hs
      rw [h l (List.mem_cons_self l rest)] at this
      exact absurd this (by simp)

/-- Claim C1: scanning the analyzer stdout lines in order, if any line
matches the score pattern (marker with an embedded integer), the parsed
score is the integer of the last such line; a no-fragmentation line yields 0
only when no score line is present; with neither marker the result is -1. -/
theorem score_parser_claim (lines : List (List Char)) :
    (∀ v : Nat, lastScoreMatch lines = some v → parseScore lines = (v : Int))
    ∧ (lastScoreMatch lines = none → hasNFF lines = true → parseScore lines = 0)
    ∧ ((∀ l ∈ lines, containsSub scoreMarker l = false ∧ containsSub nffMarker l = false) →
        parseScore lines = -1) := by
  refine ⟨?_, ?_, ?_⟩
  · intro v h
    unfold parseScore
    rw [foldl_some lines _ v h]
  · intro hnone hnff
    unfold parseScore
    rw [foldl_none_false lines _ hnone, hnff]
    simp
  · intro h
    unfold parseScore
    have hnone := lastScoreMatch_none_of lines (fun l hl => (h l hl).1)
    rw [foldl_none_false lines _ hnone]
    have : hasNFF lines = false := by
      unfold hasNFF
      rw [List.any_eq_false]
      intro l hl
      rw [(h l hl).2]
      simp
    rw [this]
    simp

/-- Witness for C1 on concrete analyzer outputs. -/
theorem score_parser_claim_witness :
    parseScore ["Fragmentation score 42".data] = 42
    ∧ parseScore ["No fragmentation found".data] = 0
    ∧ parseScore ["e4defrag 1.47".data] = -1 :=
  ⟨(score_parser_claim ["Fragmentation score 42".data]).1 42 (by decide),
   (score_parser_claim ["No fragmentation found".data]).2.1 (by decide) (by decide),
   (score_parser_claim ["e4defrag 1.47".data]).2.2 (by decide)⟩

/-! ## Block visualization model (DiskMapWidget.generate_dummy_map_data, lines 52-127)

`generateMapData shuffle score W H` mirrors the Python method.  `W` and `H`
are the usable widget area in pixels (the code's `widget_width`/
`widget_height`, i.e. widget size minus the frame line widths, lines 53-54);
the block edge is the fixed `block_size = 10` (line 37).  Python `//` on the
positive operands reached here is floor division, i.e. `Int`'s `/`.

The ratio products `int(total_blocks * r)` are CPython float operations and
are modelled exactly at the IEEE-754 double level.  The literals are the
doubles nearest to the decimals:
  `0.1  = 3602879701896397 * 2^-55`   (`0x1.999999999999ap-4`)
  `0.4  = 3602879701896397 * 2^-53`
  `0.05 = 3602879701896397 * 2^-56`
  `0.7  = 3152519739159347 * 2^-52`   (`0x1.6666666666666p-1`)
`T * c` with `c = m * 2^-s` has exact product `N * 2^-s` with `N = T*m`;
CPython rounds it to the nearest double (53-bit significand, ties to even)
and `int` then truncates toward zero.  `rnNumerator N` computes the rounded
numerator: exact when `N < 2^53`, otherwise `N` is cut at `d = bitLen N - 53`
low bits and a carry is added per the round-to-nearest-even rule; scaling by
the power of two `2^-s` commutes with the rounding.  This is faithful for
every product below the double overflow threshold (`2^1024`, far beyond any
realizable grid).  Notably `int(90 * 0.7) = 62`, not `⌊0.7*90⌋ = 63`.
The `random.shuffle` call (line 117) is an arbitrary permutation, passed in
as the `shuffle` parameter together with the assumption that it permutes
its input where a claim needs it.  The row-major layout loop (lines
120-127) pops from the front of the shuffled list and pads with `unknown`
if it runs out.
-/

/-- Bit length of `n` (position of the highest set bit plus one), computed
with an explicit fuel so that the kernel can evaluate it; `fuel = n`
always suffices since the argument halves each step. -/
def bitLenAux : Nat → Nat → Nat
  | 0, _ => 0
  | fuel + 1, n => if n = 0 then 0 else bitLenAux fuel (n / 2) + 1

def bitLen (n : Nat) : Nat := bitLenAux n n

/-- Round-to-nearest-even of `N` onto the grid of integers with at most 53
significant bits: the numerator of the IEEE double nearest to `N * 2^-s`,
scaled back by `2^s` (the scale cancels out of the rounding). -/
def rnNumerator (N : Nat) : Nat :=
  if bitLen N ≤ 53 then N
  else
    (N / 2 ^ (bitLen N - 53) +
      (if 2 ^ (bitLen N - 53 - 1) < N % 2 ^ (bitLen N - 53)
          ∨ (N % 2 ^ (bitLen N - 53) = 2 ^ (bitLen N - 53 - 1)
             ∧ N / 2 ^ (bitLen N - 53) % 2 = 1)
       then 1 else 0)) * 2 ^ (bitLen N - 53)

/-- CPython `int(T * c)` for the double constant `c = m * 2^-s`, `T` a
non-negative int: double-rounded product, truncated toward zero. -/
def pyMulFloor (T m s : Nat) : Nat := rnNumerator (T * m) / 2 ^ s

/-- Significand of the doubles `0.1` (scale 55), `0.4` (scale 53) and
`0.05` (scale 56). -/
def sig01 : Nat := 3602879701896397

/-- Significand of the double `0.7` (scale 52). -/
def sig07 : Nat := 3152519739159347

lemma bitLenAux_zero (fuel : Nat) : bitLenAux fuel 0 = 0 := by
  cases fuel <;> rfl

lemma bitLenAux_bounds : ∀ fuel n, 1 ≤ n → n ≤ fuel →
    2 ^ (bitLenAux fuel n - 1) ≤ n ∧ n < 2 ^ bitLenAux fuel n := by
  intro fuel
  induction fuel with
  | zero => intro n h1 h0; omega
  | succ f ih =>
    intro n h1 hle
    show 2 ^ ((if n = 0 then 0 else bitLenAux f (n / 2) + 1) - 1) ≤ n
      ∧ n < 2 ^ (if n = 0 then 0 else bitLenAux f (n / 2) + 1)
    rw [if_neg (by omega)]
    by_cases h2 : n = 1
    · subst h2
      simp [bitLenAux_zero]
    · have hn2 : 1 ≤ n / 2 := by omega
      have hf : n / 2 ≤ f := by omega
      obtain ⟨hl, hu⟩ := ih (n / 2) hn2 hf
      have hL1 : 1 ≤ bitLenAux f (n / 2) := by
        by_contra hc
        have hz : bitLenAux f (n / 2) = 0 := by omega
        rw [hz] at hu
        omega
      have hpow : 2 ^ bitLenAux f (n / 2) = 2 * 2 ^ (bitLenAux f (n / 2) - 1) := by
        conv_lhs => rw [show bitLenAux f (n / 2) = (bitLenAux f (n / 2) - 1) + 1 by omega]
        rw [pow_succ]
        ring
      have hpow2 : 2 ^ (bitLenAux f (n / 2) + 1) = 2 * 2 ^ bitLenAux f (n / 2) := by
        rw [pow_succ]; ring
      constructor
      · simp only [Nat.add_sub_cancel]
        omega
      · omega

lemma bitLen_bounds (n : Nat) (h : 1 ≤ n) :
    2 ^ (bitLen n - 1) ≤ n ∧ n < 2 ^ bitLen n :=
  bitLenAux_bounds n n h le_rfl

/-- Rounding to nearest never adds more than half an ulp: the rounded
numerator is at most `N * (1 + 2^-52)`. -/
lemma rnNumerator_le (N : Nat) : rnNumerator N ≤ N + N / 2 ^ 52 := by
  unfold rnNumerator
  split
  · omega
  · rename_i hb
    push_neg at hb
    have hN1 : 1 ≤ N := by
      by_contra h0
      have hz : N = 0 := by omega
      subst hz
      simp [bitLen, bitLenAux] at hb
    obtain ⟨hlow, _⟩ := bitLen_bounds N hN1
    have hd : 2 ^ (bitLen N - 53) * 2 ^ 52 ≤ N := by
      have hcomb : (2 : Nat) ^ (bitLen N - 53) * 2 ^ 52 = 2 ^ (bitLen N - 53 + 52) :=
        (pow_add 2 _ _).symm
      rw [hcomb]
      exact le_trans (Nat.pow_le_pow_right (by norm_num) (by omega)) hlow
    have hdiv : 2 ^ (bitLen N - 53) ≤ N / 2 ^ 52 :=
      (Nat.le_div_iff_mul_le (by positivity)).mpr hd
    have hqd : N / 2 ^ (bitLen N - 53) * 2 ^ (bitLen N - 53) ≤ N :=
      Nat.div_mul_le_self _ _
    split
    · have hone : (N / 2 ^ (bitLen N - 53) + 1) * 2 ^ (bitLen N - 53)
          = N / 2 ^ (bitLen N - 53) * 2 ^ (bitLen N - 53) + 2 ^ (bitLen N - 53) := by ring
      omega
    · have hzero : (N / 2 ^ (bitLen N - 53) + 0) * 2 ^ (bitLen N - 53)
          = N / 2 ^ (bitLen N - 53) * 2 ^ (bitLen N - 53) := by ring
      omega

lemma pyMulFloor_le (T m s : Nat) :
    pyMulFloor T m s ≤ (T * m + T * m / 2 ^ 52) / 2 ^ s :=
  Nat.div_le_div_right (rnNumerator_le _)

inductive Cat where
  | empty
  | metadata
  | nonFragmented
  | fragmented
  | unmovable
  | unknown
deriving DecidableEq, Repr

def blockSize : Int := 10

/-- The `fragmented_ratio` bucket chain (lines 78-88), already multiplied by
the total: `num_fragmented = int(total_blocks * fragmented_ratio)` in
CPython double arithmetic (ratio 0.0 gives 0 exactly). -/
def fragmentedCount (score : Int) (total : Nat) : Nat :=
  if score = 0 then 0
  else if 1 ≤ score ∧ score ≤ 30 then pyMulFloor total sig01 55
  else if 31 ≤ score ∧ score ≤ 55 then pyMulFloor total sig01 53
  else if 56 ≤ score then pyMulFloor total sig07 52
  else 0

/-- `num_empty = int(total_blocks * 0.10)` (lines 91, 100). -/
def numEmpty (total : Nat) : Nat := pyMulFloor total sig01 55

/-- `num_metadata = int(total_blocks * 0.05)` (lines 92, 101). -/
def numMetadata (total : Nat) : Nat := pyMulFloor total sig01 56

/-- `num_unmovable = int(total_blocks * 0.05)` (lines 93, 102). -/
def numUnmovable (total : Nat) : Nat := pyMulFloor total sig01 56

/-- `num_non_fragmented` (lines 96-98): remaining capacity, clamped at 0.
`Int.toNat` is exactly the `if num_non_fragmented < 0: num_non_fragmented = 0`
clamp. -/
def numNonFragmented (score : Int) (total : Nat) : Nat :=
  ((total : Int) - fragmentedCount score total - numEmpty total
    - numMetadata total - numUnmovable total).toNat

/-- The `block_types` list (lines 104-114): category blocks concatenated in
source order, extended with `unknown` for any rounding remainder. -/
def buildBlockTypes (score : Int) (total : Nat) : List Cat :=
  let base := List.replicate (fragmentedCount score total) Cat.fragmented
    ++ List.replicate (numNonFragmented score total) Cat.nonFragmented
    ++ List.replicate (numEmpty total) Cat.empty
    ++ List.replicate (numMetadata total) Cat.metadata
    ++ List.replicate (numUnmovable total) Cat.unmovable
  base ++ List.replicate (total - base.length) Cat.unknown

/-- Take `n` cells for one row, popping from the front and padding with
`unknown` when the list is exhausted (lines 122-126). -/
def takePad : Nat → List Cat → List Cat × List Cat
  | 0, bs => ([], bs)
  | n + 1, [] => (Cat.unknown :: (takePad n []).1, [])
  | n + 1, b :: bs => ((b :: (takePad n bs).1), (takePad n bs).2)

/-- The row-major layout loop (lines 119-127). -/
def layoutRows : Nat → Nat → List Cat → List (List Cat)
  | 0, _, _ => []
  | r + 1, cols, bs => (takePad cols bs).1 :: layoutRows r cols (takePad cols bs).2

/-- `generate_dummy_map_data`, with the widget's usable pixel area and the
shuffle passed explicitly. -/
def generateMapData (shuffle : List Cat → List Cat) (score W H : Int) :
    List (List Cat) :=
  if W ≤ 0 ∨ H ≤ 0 then []
  else
    let cols := (W / blockSize).toNat
    let rows := (H / blockSize).toNat
    let total := cols * rows
    if total = 0 then []
    else if score = -1 then List.replicate rows (List.replicate cols Cat.unknown)
    else layoutRows rows cols (shuffle (buildBlockTypes score total))

/-- Total cell capacity of the grid for a given pixel area: columns times rows. -/
def gridTotal (W H : Int) : Nat := (W / blockSize).toNat * (H / blockSize).toNat

/-- Number of cells of category `c` in a grid. -/
def countCat (c : Cat) (g : List (List Cat)) : Nat :=
  (g.map (fun row => row.count c)).sum

lemma takePad_fst_length (n : Nat) : ∀ bs : List Cat, ((takePad n bs).1).length = n := by
  induction n with
  | zero => intro bs; rfl
  | succ m ih =>
    intro bs
    cases bs with
    | nil => simp [takePad, ih]
    | cons b t => simp [takePad, ih]

lemma takePad_of_le (n : Nat) : ∀ bs : List Cat, n ≤ bs.length →
    takePad n bs = (bs.take n, bs.drop n) := by
  induction n with
  | zero => intro bs _; rfl
  | succ m ih =>
    intro bs h
    cases bs with
    | nil => simp at h
    | cons b t =>
      have ht : m ≤ t.length := by simpa using h
      simp [takePad, ih t ht]

lemma layoutRows_length (cols : Nat) : ∀ (r : Nat) (bs : List Cat),
    (layoutRows r cols bs).length = r := by
  intro r
  induction r with
  | zero => intro bs; rfl
  | succ n ih => intro bs; simp [layoutRows, ih]

lemma layoutRows_row_length (cols : Nat) : ∀ (r : Nat) (bs : List Cat),
    ∀ row ∈ layoutRows r cols bs, row.length = cols := by
  intro r
  induction r with
  | zero => intro bs row hrow; simp [layoutRows] at hrow
  | succ n ih =>
    intro bs row hrow
    simp only [layoutRows, List.mem_cons] at hrow
    rcases hrow with h | h
    · rw [h]; exact takePad_fst_length cols bs
    · exact ih _ row h

lemma countCat_layoutRows (c : Cat) (cols : Nat) : ∀ (r : Nat) (bs : List Cat),
    bs.length = r * cols →
    countCat c (layoutRows r cols bs) = bs.count c := by
  intro r
  induction r with
  | zero =>
    intro bs h
    have : bs = [] := List.length_eq_zero.mp (by simpa using h)
    simp [this, layoutRows, countCat]
  | succ n ih =>
    intro bs h
    have hlen : cols ≤ bs.length := by
      rw [h, Nat.succ_mul]; omega
    rw [layoutRows, takePad_of_le cols bs hlen]
    have hdrop : (bs.drop cols).length = n * cols := by
      rw [List.length_drop, h, Nat.succ_mul]; omega
    have := ih (bs.drop cols) hdrop
    simp only [countCat, List.map_cons, List.sum_cons] at *
    rw [this]
    conv_rhs => rw [← List.take_append_drop cols bs]
    rw [List.count_append]

/-- The four category ratios sum to at most 0.9 even after each product's
half-ulp rounding slack, so the block counts never exceed the capacity. -/
lemma buildBlockTypes_parts_le (score : Int) (total : Nat) :
    fragmentedCount score total + numEmpty total + numMetadata total
      + numUnmovable total ≤ total := by
  have h07 := pyMulFloor_le total sig07 52
  have h04 := pyMulFloor_le total sig01 53
  have h01 := pyMulFloor_le total sig01 55
  have h005 := pyMulFloor_le total sig01 56
  unfold fragmentedCount numEmpty numMetadata numUnmovable
  unfold sig01 sig07 at *
  split
  · omega
  · split
    · omega
    · split
      · omega
      · split
        · omega
        · omega

lemma buildBlockTypes_length (score : Int) (total : Nat) :
    (buildBlockTypes score total).length = total := by
  have hle := buildBlockTypes_parts_le score total
  unfold buildBlockTypes numNonFragmented
  simp only [List.length_append, List.length_replicate]
  omega

lemma count_buildBlockTypes (score : Int) (total : Nat) :
    (buildBlockTypes score total).count Cat.fragmented = fragmentedCount score total
    ∧ (buildBlockTypes score total).count Cat.nonFragmented = numNonFragmented score total
    ∧ (buildBlockTypes score total).count Cat.empty = numEmpty total
    ∧ (buildBlockTypes score total).count Cat.metadata = numMetadata total
    ∧ (buildBlockTypes score total).count Cat.unmovable = numUnmovable total
    ∧ (buildBlockTypes score total).count Cat.unknown
        = total - (fragmentedCount score total + numNonFragmented score total
            + numEmpty total + numMetadata total + numUnmovable total) := by
  unfold buildBlockTypes
  simp only [List.count_append, List.count_replicate, List.length_append,
    List.length_replicate]
  refine ⟨by simp, by simp, by simp, by simp, by simp, by simp⟩

lemma generateMapData_pos (shuffle : List Cat → List Cat) (score W H : Int)
    (hW : 0 < W / blockSize) (hH : 0 < H / blockSize) (hs : score ≠ -1) :
    generateMapData shuffle score W H =
      layoutRows (H / blockSize).toNat (W / blockSize).toNat
        (shuffle (buildBlockTypes score (gridTotal W H))) := by
  have hW0 : 0 < W := by unfold blockSize at hW; omega
  have hH0 : 0 < H := by unfold blockSize at hH; omega
  unfold generateMapData
  rw [if_neg (by omega)]
  rw [if_neg (Nat.mul_ne_zero (by omega) (by omega))]
  rw [if_neg hs]
  rfl

/-- Claim C5: the grid has `floor(W/blockEdge)` columns and `floor(H/blockEdge)`
rows when both are positive; when either is non-positive the grid is empty;
and for score -1 every cell is `unknown`.  `shuffle` is the (arbitrary)
permutation used by `random.shuffle`. -/
theorem diskmap_dims_claim (shuffle : List Cat → List Cat) (s W H : Int) :
    (0 < W / blockSize → 0 < H / blockSize →
      (generateMapData shuffle s W H).length = (H / blockSize).toNat
      ∧ ∀ row ∈ generateMapData shuffle s W H, row.length = (W / blockSize).toNat)
    ∧ ((W / blockSize ≤ 0 ∨ H / blockSize ≤ 0) → generateMapData shuffle s W H = [])
    ∧ (s = -1 → ∀ row ∈ generateMapData shuffle s W H, ∀ cell ∈ row, cell = Cat.unknown) := by
  refine ⟨?_, ?_, ?_⟩
  · intro hW hH
    by_cases hs : s = -1
    · have hW0 : 0 < W := by unfold blockSize at hW; omega
      have hH0 : 0 < H := by unfold blockSize at hH; omega
      unfold generateMapData
      rw [if_neg (by omega)]
      rw [if_neg (Nat.mul_ne_zero (by omega) (by omega))]
      rw [if_pos hs]
      constructor
      · simp
      · intro row hrow
        rw [List.eq_of_mem_replicate hrow]
        simp
    · rw [generateMapData_pos shuffle s W H hW hH hs]
      exact ⟨layoutRows_length _ _ _, layoutRows_row_length _ _ _⟩
  · intro h
    unfold generateMapData
    by_cases h0 : W ≤ 0 ∨ H ≤ 0
    · rw [if_pos h0]
    · rw [if_neg h0]
      rw [if_pos (Nat.mul_eq_zero.mpr (by
        rcases h with h | h
        · exact Or.inl (by omega)
        · exact Or.inr (by omega)))]
  · intro hs row hrow cell hcell
    subst hs
    unfold generateMapData at hrow
    by_cases h0 : W ≤ 0 ∨ H ≤ 0
    · rw [if_pos h0] at hrow; simp at hrow
    · rw [if_neg h0] at hrow
      by_cases ht : (W / blockSize).toNat * (H / blockSize).toNat = 0
      · rw [if_pos ht] at hrow; simp at hrow
      · rw [if_neg ht, if_pos rfl] at hrow
        rw [List.eq_of_mem_replicate hrow] at hcell
        exact List.eq_of_mem_replicate hcell

/-- Witness for C5 at score -1 on a 100 x 50 pixel area. -/
theorem diskmap_dims_claim_witness :
    (0 : Int) < 100 / blockSize
    ∧ (generateMapData id (-1) 100 50).length = ((50 : Int) / blockSize).toNat
    ∧ (∀ row ∈ generateMapData id (-1) 100 50, ∀ cell ∈ row, cell = Cat.unknown) :=
  ⟨by decide,
   ((diskmap_dims_claim id (-1) 100 50).1 (by decide) (by decide)).1,
   (diskmap_dims_claim id (-1) 100 50).2.2 rfl⟩

/-- Counterexample for C6: on a 100 x 90 pixel area (10 x 9 blocks,
`T = 90`) at score 70 (the `>= 56` bucket), the rendered fragmented-cell
count is 62, because CPython's `int(90 * 0.7)` is 62 (the double product is
62.99999999999999289), not the claim's `floor(0.7 * T) = 63`. -/
theorem diskmap_counts_counterexample :
    countCat Cat.fragmented (generateMapData id 70 100 90) = 62
    ∧ 90 * 7 / 10 = 63
    ∧ ¬ countCat Cat.fragmented (generateMapData id 70 100 90) = 90 * 7 / 10 := by
  refine ⟨by decide, by decide, by decide⟩

/-- Claim C6 as amended: for scores in [0,100] on a non-empty grid of
`T = gridTotal W H` cells, the per-category counts are the
`int(T * ratio)` values as CPython computes them in IEEE double arithmetic
(`pyMulFloor` with the double constants: bucket ratio for `fragmented`,
`0.10` for `empty`, `0.05` for `metadata` and `unmovable`) — these agree
with the exact floors `floor(ratio * T)` except in the `>= 56` bucket at
totals such as 90, 170, 180, 330-360, ... where the count is one less;
non-fragmented fills the remaining capacity clamped at 0, and whatever is
left over is `unknown`. -/
theorem diskmap_counts_claim (shuffle : List Cat → List Cat)
    (hsh : ∀ l, List.Perm (shuffle l) l) (s W H : Int)
    (h0 : 0 ≤ s) (h100 : s ≤ 100)
    (hW : 0 < W / blockSize) (hH : 0 < H / blockSize) :
    countCat Cat.fragmented (generateMapData shuffle s W H)
        = fragmentedCount s (gridTotal W H)
    ∧ countCat Cat.empty (generateMapData shuffle s W H)
        = pyMulFloor (gridTotal W H) sig01 55
    ∧ countCat Cat.metadata (generateMapData shuffle s W H)
        = pyMulFloor (gridTotal W H) sig01 56
    ∧ countCat Cat.unmovable (generateMapData shuffle s W H)
        = pyMulFloor (gridTotal W H) sig01 56
    ∧ countCat Cat.nonFragmented (generateMapData shuffle s W H)
        = ((gridTotal W H : Int) - fragmentedCount s (gridTotal W H)
            - pyMulFloor (gridTotal W H) sig01 55
            - pyMulFloor (gridTotal W H) sig01 56
            - pyMulFloor (gridTotal W H) sig01 56).toNat
    ∧ countCat Cat.unknown (generateMapData shuffle s W H)
        = gridTotal W H - (fragmentedCount s (gridTotal W H)
            + numNonFragmented s (gridTotal W H)
            + pyMulFloor (gridTotal W H) sig01 55
            + pyMulFloor (gridTotal W H) sig01 56
            + pyMulFloor (gridTotal W H) sig01 56) := by
  have hs : s ≠ -1 := by omega
  rw [generateMapData_pos shuffle s W H hW hH hs]
  have hlen : (shuffle (buildBlockTypes s (gridTotal W H))).length
      = (H / blockSize).toNat * (W / blockSize).toNat := by
    rw [(hsh _).length_eq, buildBlockTypes_length]
    unfold gridTotal
    ring
  have hcount : ∀ c : Cat,
      countCat c (layoutRows (H / blockSize).toNat (W / blockSize).toNat
        (shuffle (buildBlockTypes s (gridTotal W H))))
      = (buildBlockTypes s (gridTotal W H)).count c := by
    intro c
    rw [countCat_layoutRows c _ _ _ hlen]
    exact (hsh _).count_eq c
  obtain ⟨c1, c2, c3, c4, c5, c6⟩ := count_buildBlockTypes s (gridTotal W H)
  refine ⟨?_, ?_, ?_, ?_, ?_, ?_⟩
  · rw [hcount Cat.fragmented, c1]
  · rw [hcount Cat.empty, c3]; rfl
  · rw [hcount Cat.metadata, c4]; rfl
  · rw [hcount Cat.unmovable, c5]; rfl
  · rw [hcount Cat.nonFragmented, c2]; rfl
  · rw [hcount Cat.unknown, c6]; rfl

/-- Witness for the amended C6 at score 70 on a 100 x 90 pixel area
(`T = 90`, the divergent total: `int(90 * 0.7) = 62`). -/
theorem diskmap_counts_claim_witness :
    (0 : Int) ≤ 70
    ∧ countCat Cat.fragmented (generateMapData id 70 100 90)
        = fragmentedCount 70 (gridTotal 100 90)
    ∧ fragmentedCount 70 (gridTotal 100 90) = 62 :=
  ⟨by decide,
   (diskmap_counts_claim id (fun l => List.Perm.refl l) 70 100 90
      (by decide) (by decide) (by decide) (by decide)).1,
   by decide⟩

/-- Claim C7: for a fixed score and pixel area, any two renderings (i.e. any
two permutations drawn from the non-seeded random source) have identical
per-category cell counts. -/
lemma generateMapData_shape (shuffle : List Cat → List Cat) (score W H : Int) :
    generateMapData shuffle score W H =
      (if W ≤ 0 ∨ H ≤ 0 then []
       else if (W / blockSize).toNat * (H / blockSize).toNat = 0 then []
       else if score = -1 then
         List.replicate (H / blockSize).toNat
           (List.replicate (W / blockSize).toNat Cat.unknown)
       else layoutRows (H / blockSize).toNat (W / blockSize).toNat
         (shuffle (buildBlockTypes score
            ((W / blockSize).toNat * (H / blockSize).toNat)))) := rfl

theorem diskmap_proportions_claim (sh1 sh2 : List Cat → List Cat)
    (h1 : ∀ l, List.Perm (sh1 l) l) (h2 : ∀ l, List.Perm (sh2 l) l)
    (s W H : Int) (c : Cat) :
    countCat c (generateMapData sh1 s W H) = countCat c (generateMapData sh2 s W H) := by
  rw [generateMapData_shape sh1, generateMapData_shape sh2]
  by_cases h0 : W ≤ 0 ∨ H ≤ 0
  · rw [if_pos h0, if_pos h0]
  · rw [if_neg h0, if_neg h0]
    by_cases ht : (W / blockSize).toNat * (H / blockSize).toNat = 0
    · rw [if_pos ht, if_pos ht]
    · rw [if_neg ht, if_neg ht]
      by_cases hs : s = -1
      · rw [if_pos hs, if_pos hs]
      · rw [if_neg hs, if_neg hs]
        have hlen : ∀ sh : List Cat → List Cat, (∀ l, List.Perm (sh l) l) →
            (sh (buildBlockTypes s ((W / blockSize).toNat * (H / blockSize).toNat))).length
              = (H / blockSize).toNat * (W / blockSize).toNat := by
          intro sh hsh
          rw [(hsh _).length_eq, buildBlockTypes_length]
          ring
        rw [countCat_layoutRows c _ _ _ (hlen sh1 h1),
            countCat_layoutRows c _ _ _ (hlen sh2 h2)]
        rw [(h1 _).count_eq, (h2 _).count_eq]

/-- Witness for C7: identity shuffle versus reversal at score 45. -/
theorem diskmap_proportions_claim_witness :
    countCat Cat.fragmented (generateMapData id 45 100 50)
      = countCat Cat.fragmented (generateMapData List.reverse 45 100 50) :=
  diskmap_proportions_claim id List.reverse (fun l => List.Perm.refl l)
    (fun l => List.reverse_perm l) 45 100 50 Cat.fragmented

/-! ## Defragmentation task (DefragWorker.run, lines 169-201)

The run routine is embedded as a function of
  * the initial map-widget score `s0` (the pre-operation fragmentation score),
  * the behaviour of `subprocess.Popen` / `communicate` (`SpawnBehavior`):
    either the spawn succeeds and the process eventually exits with a given
    return code, stdout and stderr, or the `Popen` call itself raises (for
    example `FileNotFoundError` when `pkexec` is missing),
  * the cooperative-cancellation flag: `stopAt = some k` means the liveness
    flag `is_running` reads false from the `k`-th synthetic-progress
    iteration on (it is cleared once, by `terminate`, and never reset).

Faithful modelling notes, re-traceable in the source:
  * line 173 sets the widget score to 90 before the process is spawned, so
    the widget score at `finally` time is 90 on every path;
  * `self.isFinished()` is false while `run` is still executing, so the
    `finally` guard (line 197) reduces to the `returncode` test;
  * on the early-`return` path (line 182) `communicate` was never called, so
    `process.returncode` is Python `None`, and `None == 0` is false: the
    `finally` keeps the current score (90);
  * if `Popen` raises, the `except` block emits the error event, but in the
    `finally` block the local variable `process` was never bound, so
    evaluating `hasattr(process, 'returncode')` raises `UnboundLocalError`,
    which propagates out of `run`: modelled by `raised := true`.

Event payloads keep the data embedded in the emitted message strings (device
path, captured stdout/stderr); the surrounding literal text is abstracted
into the constructor.
-/

inductive SpawnBehavior where
  | ok (returncode : Int) (stdoutS stderrS : String)
  | raises
deriving DecidableEq, Repr

structure DefragEnv where
  spawn : SpawnBehavior
  stopAt : Option Nat
deriving DecidableEq, Repr

inductive DefragErr where
  | execFailed (stderr : String)
  | unexpected
deriving DecidableEq, Repr

inductive DefragEvent where
  | progress (n : Int)
  | finished (devicePath : String) (stdoutS : String)
  | error (msg : DefragErr)
deriving DecidableEq, Repr

structure DefragResult where
  events : List DefragEvent
  score : Int
  raised : Bool
deriving DecidableEq, Repr

/-- Whether the `is_running` check at iteration `i` reads false. -/
def stopHit (stop : Option Nat) (i : Nat) : Bool :=
  match stop with
  | some k => decide (k ≤ i)
  | none => false

/-- The synthetic-progress loop `for i in range(10)` (lines 181-184), started
at iteration `i` with `n` iterations left: the emitted progress values and
whether the loop ran to completion (false = early `return`). -/
def forLoop (stop : Option Nat) : Nat → Nat → List Int × Bool
  | 0, _ => ([], true)
  | n + 1, i =>
    if stopHit stop i then ([], false)
    else ((10 + (i : Int) * 8) :: (forLoop stop n (i + 1)).1, (forLoop stop n (i + 1)).2)

/-- `DefragWorker.run` (lines 169-201). -/
def defragRun (dev : String) (s0 : Int) (env : DefragEnv) : DefragResult :=
  match env.spawn with
  | SpawnBehavior.raises =>
    { events := [DefragEvent.progress 10, DefragEvent.error DefragErr.unexpected]
      score := 90
      raised := true }
  | SpawnBehavior.ok rc outS errS =>
    let lp := forLoop env.stopAt 10 0
    let pevs := DefragEvent.progress 10 :: lp.1.map DefragEvent.progress
    if lp.2 then
      if rc = 0 then
        { events := pevs ++ [DefragEvent.progress 100, DefragEvent.finished dev outS]
          score := 0
          raised := false }
      else
        { events := pevs ++ [DefragEvent.error (DefragErr.execFailed errS)]
          score := 90
          raised := false }
    else
      { events := pevs, score := 90, raised := false }

def isTerminal : DefragEvent → Bool
  | DefragEvent.finished _ _ => true
  | DefragEvent.error _ => true
  | DefragEvent.progress _ => false

def terminalEvents (r : DefragResult) : List DefragEvent :=
  r.events.filter isTerminal

def terminalCount (r : DefragResult) : Nat :=
  (terminalEvents r).length

lemma forLoop_complete (stop : Option Nat) :
    ∀ n i, (∀ k, stop = some k → n + i ≤ k) → (forLoop stop n i).2 = true := by
  intro n
  induction n with
  | zero => intro i _; rfl
  | succ m ih =>
    intro i h
    have hhit : stopHit stop i = false := by
      cases stop with
      | none => rfl
      | some k =>
        have := h k rfl
        simp [stopHit]
        omega
    rw [forLoop, hhit]
    simp only [if_false, Bool.false_eq_true]
    exact ih (i + 1) (fun k hk => by have := h k hk; omega)

lemma filter_progress_nil (l : List Int) :
    (l.map DefragEvent.progress).filter isTerminal = [] := by
  induction l with
  | nil => rfl
  | cons x t ih => simp [isTerminal, ih]

lemma terminalEvents_complete (dev : String) (s0 rc : Int) (outS errS : String)
    (env : DefragEnv) (hspawn : env.spawn = SpawnBehavior.ok rc outS errS)
    (hstop : ∀ k, env.stopAt = some k → 10 ≤ k) :
    terminalEvents (defragRun dev s0 env)
      = (if rc = 0 then [DefragEvent.finished dev outS]
         else [DefragEvent.error (DefragErr.execFailed errS)])
    ∧ (defragRun dev s0 env).score = (if rc = 0 then 0 else 90) := by
  have hloop : (forLoop env.stopAt 10 0).2 = true :=
    forLoop_complete env.stopAt 10 0 (fun k hk => by have := hstop k hk; omega)
  unfold defragRun
  rw [hspawn]
  simp only [hloop, if_true]
  by_cases hrc : rc = 0
  · rw [if_pos hrc, if_pos hrc, if_pos hrc]
    constructor
    · unfold terminalEvents
      simp [List.filter_append, filter_progress_nil, isTerminal]
    · rfl
  · rw [if_neg hrc, if_neg hrc, if_neg hrc]
    constructor
    · unfold terminalEvents
      simp [List.filter_append, filter_progress_nil, isTerminal]
    · rfl

/-- Counterexample for C2: with pre-operation score 62 and a failing
defragmentation (exit status 1), the score observed after the run is 90 —
the synthetic in-progress value set at line 173 — not the pre-operation
value 62. -/
theorem defrag_failure_preop_counterexample :
    (defragRun "/dev/sda1" 62 ⟨SpawnBehavior.ok 1 "" "error text", none⟩).score = 90
    ∧ ¬ (defragRun "/dev/sda1" 62 ⟨SpawnBehavior.ok 1 "" "error text", none⟩).score = 62 := by
  constructor
  · rfl
  · decide

/-- Claim C2 as amended: after a defragmentation run that observes a
non-zero exit status, the score equals 90 (the fixed synthetic high-severity
value the task wrote when it started), independent of the pre-operation
value `s0` — in particular it is not reset to 0, but it is not the
pre-operation value either. -/
theorem defrag_failure_score_claim (dev : String) (s0 rc : Int) (outS errS : String)
    (stop : Option Nat) (hstop : ∀ k, stop = some k → 10 ≤ k) (hrc : rc ≠ 0) :
    (defragRun dev s0 ⟨SpawnBehavior.ok rc outS errS, stop⟩).score = 90 := by
  have h := (terminalEvents_complete dev s0 rc outS errS
    ⟨SpawnBehavior.ok rc outS errS, stop⟩ rfl hstop).2
  rw [h, if_neg hrc]

/-- Witness for the amended C2. -/
theorem defrag_failure_score_claim_witness :
    (defragRun "/dev/sdb2" 17 ⟨SpawnBehavior.ok 1 "" "boom", none⟩).score = 90 :=
  defrag_failure_score_claim "/dev/sdb2" 17 1 "" "boom" none
    (fun k hk => nomatch hk) (by decide)

/-- Claim C3: a defragmentation run that observes exit status zero emits the
success outcome carrying the exit message (device path and captured stdout)
and forces the score to 0; a run that observes a non-zero exit status emits
the failure outcome carrying the captured stderr text and leaves the score
non-zero. -/
theorem defrag_outcome_claim (dev : String) (s0 rc : Int) (outS errS : String)
    (stop : Option Nat) (hstop : ∀ k, stop = some k → 10 ≤ k) :
    (rc = 0 →
      terminalEvents (defragRun dev s0 ⟨SpawnBehavior.ok rc outS errS, stop⟩)
          = [DefragEvent.finished dev outS]
      ∧ (defragRun dev s0 ⟨SpawnBehavior.ok rc outS errS, stop⟩).score = 0)
    ∧ (rc ≠ 0 →
      terminalEvents (defragRun dev s0 ⟨SpawnBehavior.ok rc outS errS, stop⟩)
          = [DefragEvent.error (DefragErr.execFailed errS)]
      ∧ ¬ (defragRun dev s0 ⟨SpawnBehavior.ok rc outS errS, stop⟩).score = 0) := by
  obtain ⟨he, hs⟩ := terminalEvents_complete dev s0 rc outS errS
    ⟨SpawnBehavior.ok rc outS errS, stop⟩ rfl hstop
  constructor
  · intro hrc
    rw [he, hs, if_pos hrc, if_pos hrc]
    exact ⟨rfl, rfl⟩
  · intro hrc
    rw [he, hs, if_neg hrc, if_neg hrc]
    exact ⟨rfl, by decide⟩

/-- Witness for C3, on a successful and on a failing run. -/
theorem defrag_outcome_claim_witness :
    (terminalEvents (defragRun "/dev/sda1" 62 ⟨SpawnBehavior.ok 0 "done" "", none⟩)
        = [DefragEvent.finished "/dev/sda1" "done"]
      ∧ (defragRun "/dev/sda1" 62 ⟨SpawnBehavior.ok 0 "done" "", none⟩).score = 0)
    ∧ (terminalEvents (defragRun "/dev/sdb2" 30 ⟨SpawnBehavior.ok 1 "" "boom", none⟩)
        = [DefragEvent.error (DefragErr.execFailed "boom")]
      ∧ ¬ (defragRun "/dev/sdb2" 30 ⟨SpawnBehavior.ok 1 "" "boom", none⟩).score = 0) :=
  ⟨(defrag_outcome_claim "/dev/sda1" 62 0 "done" "" none (fun k hk => nomatch hk)).1 rfl,
   (defrag_outcome_claim "/dev/sdb2" 30 1 "" "boom" none (fun k hk => nomatch hk)).2
     (by decide)⟩

/-! ## Analysis task (CheckDefragWorker.run, lines 218-245)

`CheckSpawn` captures the behaviour of the external analyzer invocation:
the spawn succeeds and the process exits with a return code, stdout
(modelled pre-split into lines, as `splitlines` does at line 226) and
stderr; or `Popen` raises `FileNotFoundError` (the binary is absent,
line 242); or some other exception is raised (line 244).  The routine emits
exactly one event on each path; `CheckErr.toolNotFound` stands for the
dedicated Turkish "komutu bulunamadı" message of line 243.
-/

inductive CheckSpawn where
  | ok (returncode : Int) (stdoutLines : List (List Char)) (stderrS : String)
  | fileNotFound
  | otherRaises
deriving DecidableEq, Repr

structure CheckEnv where
  spawn : CheckSpawn
deriving DecidableEq, Repr

inductive CheckErr where
  | execFailed (stderr : String)
  | toolNotFound
  | unexpected
deriving DecidableEq, Repr

inductive CheckEvent where
  | finished (score : Int) (reportLines : List (List Char))
  | error (msg : CheckErr)
deriving DecidableEq, Repr

/-- `CheckDefragWorker.run`: the list of events emitted. -/
def checkRun (env : CheckEnv) : List CheckEvent :=
  match env.spawn with
  | CheckSpawn.ok rc outLines errS =>
    if rc = 0 then [CheckEvent.finished (parseScore outLines) outLines]
    else [CheckEvent.error (CheckErr.execFailed errS)]
  | CheckSpawn.fileNotFound => [CheckEvent.error CheckErr.toolNotFound]
  | CheckSpawn.otherRaises => [CheckEvent.error CheckErr.unexpected]

/-- Claim C8: the analysis task emits `success(score, raw_report)` exactly
when the analyzer exits with status zero (the score being the parser's
result on its stdout); `failure` with the captured stderr on a non-zero
exit; the dedicated tool-not-found failure when the binary is absent; and a
generic failure on any other exception. -/
theorem check_outcome_claim (env : CheckEnv) :
    (∀ rc outLines errS, env.spawn = CheckSpawn.ok rc outLines errS →
      (rc = 0 → checkRun env = [CheckEvent.finished (parseScore outLines) outLines])
      ∧ (rc ≠ 0 → checkRun env = [CheckEvent.error (CheckErr.execFailed errS)]))
    ∧ (env.spawn = CheckSpawn.fileNotFound →
        checkRun env = [CheckEvent.error CheckErr.toolNotFound])
    ∧ (env.spawn = CheckSpawn.otherRaises →
        checkRun env = [CheckEvent.error CheckErr.unexpected])
    ∧ (∀ s rep, CheckEvent.finished s rep ∈ checkRun env →
        ∃ errS, env.spawn = CheckSpawn.ok 0 rep errS ∧ s = parseScore rep) := by
  refine ⟨?_, ?_, ?_, ?_⟩
  · intro rc outLines errS hsp
    constructor
    · intro hrc; subst hrc; simp [checkRun, hsp]
    · intro hrc; simp [checkRun, hsp, hrc]
  · intro hsp; simp [checkRun, hsp]
  · intro hsp; simp [checkRun, hsp]
  · intro s rep hmem
    cases hsp : env.spawn with
    | ok rc outLines errS =>
      by_cases hrc : rc = 0
      · subst hrc
        have hck : checkRun env = [CheckEvent.finished (parseScore outLines) outLines] := by
          simp [checkRun, hsp]
        rw [hck, List.mem_singleton, CheckEvent.finished.injEq] at hmem
        obtain ⟨hs, hrep⟩ := hmem
        subst hrep
        subst hs
        exact ⟨errS, by first | exact hsp | rfl, rfl⟩
      · simp [checkRun, hsp, hrc] at hmem
    | fileNotFound => simp [checkRun, hsp] at hmem
    | otherRaises => simp [checkRun, hsp] at hmem

/-- Witness for C8: a zero-exit run whose stdout reports score 42, and a
missing-binary run. -/
theorem check_outcome_claim_witness :
    checkRun ⟨CheckSpawn.ok 0 ["Fragmentation score 42".data] ""⟩
        = [CheckEvent.finished (parseScore ["Fragmentation score 42".data])
            ["Fragmentation score 42".data]]
    ∧ checkRun ⟨CheckSpawn.fileNotFound⟩ = [CheckEvent.error CheckErr.toolNotFound] :=
  ⟨((check_outcome_claim ⟨CheckSpawn.ok 0 ["Fragmentation score 42".data] ""⟩).1
      0 ["Fragmentation score 42".data] "" rfl).1 rfl,
   (check_outcome_claim ⟨CheckSpawn.fileNotFound⟩).2.1 rfl⟩

/-- Counterexample for C4: a defragmentation run that is cancelled before
the first synthetic-progress iteration (spawn succeeded, `is_running`
already false at iteration 0) returns from line 182 and delivers no
terminal outcome event at all — not exactly one. -/
theorem task_outcome_counterexample :
    terminalCount (defragRun "/dev/sda1" 62 ⟨SpawnBehavior.ok 0 "" "", some 0⟩) = 0 := by
  decide

/-- Claim C4 as amended: every task run delivers at most one terminal
outcome event; the analysis task always delivers exactly one; the
defragmentation task delivers exactly one unless cancellation is observed
during the synthetic-progress loop, in which case it delivers none. -/
theorem task_outcome_claim (dev : String) (s0 : Int) (env : DefragEnv)
    (cenv : CheckEnv) :
    terminalCount (defragRun dev s0 env) ≤ 1
    ∧ ((∀ k, env.stopAt = some k → 10 ≤ k) → terminalCount (defragRun dev s0 env) = 1)
    ∧ (checkRun cenv).length = 1 := by
  refine ⟨?_, ?_, ?_⟩
  · obtain ⟨spawn, stop⟩ := env
    cases spawn with
    | raises => simp [terminalCount, terminalEvents, defragRun, isTerminal]
    | ok rc outS errS =>
      show (List.filter isTerminal (defragRun dev s0 ⟨SpawnBehavior.ok rc outS errS, stop⟩).events).length ≤ 1
      by_cases hl : (forLoop stop 10 0).2 = true
      · by_cases hrc : rc = 0
        · simp [defragRun, hl, hrc, List.filter_append, filter_progress_nil, isTerminal]
        · simp [defragRun, hl, hrc, List.filter_append, filter_progress_nil, isTerminal]
      · simp [defragRun, hl, List.filter_append, filter_progress_nil, isTerminal]
  · intro hstop
    cases hsp : env.spawn with
    | raises =>
      have hdef : defragRun dev s0 env =
          { events := [DefragEvent.progress 10, DefragEvent.error DefragErr.unexpected]
            score := 90, raised := true } := by
        unfold defragRun
        rw [hsp]
      unfold terminalCount terminalEvents
      rw [hdef]
      decide
    | ok rc outS errS =>
      have := (terminalEvents_complete dev s0 rc outS errS env hsp hstop).1
      unfold terminalCount
      rw [this]
      by_cases hrc : rc = 0
      · rw [if_pos hrc]; rfl
      · rw [if_neg hrc]; rfl
  · obtain ⟨spawn⟩ := cenv
    cases spawn with
    | ok rc outLines errS =>
      by_cases hrc : rc = 0
      · simp [checkRun, hrc]
      · simp [checkRun, hrc]
    | fileNotFound => rfl
    | otherRaises => rfl

/-- Witness for the amended C4: an uncancelled failing run delivers exactly
one terminal event, and so does a tool-not-found analysis run. -/
theorem task_outcome_claim_witness :
    terminalCount (defragRun "/dev/sda1" 62 ⟨SpawnBehavior.ok 1 "" "e", none⟩) = 1
    ∧ (checkRun ⟨CheckSpawn.fileNotFound⟩).length = 1 :=
  ⟨(task_outcome_claim "/dev/sda1" 62 ⟨SpawnBehavior.ok 1 "" "e", none⟩
      ⟨CheckSpawn.fileNotFound⟩).2.1 (fun k hk => nomatch hk),
   (task_outcome_claim "/dev/sda1" 62 ⟨SpawnBehavior.ok 1 "" "e", none⟩
      ⟨CheckSpawn.fileNotFound⟩).2.2⟩

/-- Claim C10, evaluated at the failing input: when `Popen` itself raises
(e.g. the privileged launcher or `e4defrag` is absent), the `except` block
still emits the failure event, but the `finally` block then evaluates
`hasattr(process, 'returncode')` with the local `process` unbound and
raises `UnboundLocalError` out of `run` — the cleanup code does fault. -/
theorem defrag_spawn_raises_claim :
    (defragRun "/dev/sda1" 62 ⟨SpawnBehavior.raises, none⟩).raised = true
    ∧ terminalEvents (defragRun "/dev/sda1" 62 ⟨SpawnBehavior.raises, none⟩)
        = [DefragEvent.error DefragErr.unexpected]
    ∧ (defragRun "/dev/sda1" 62 ⟨SpawnBehavior.ok 1 "" "e", some 3⟩).raised = false
    ∧ (defragRun "/dev/sda1" 62 ⟨SpawnBehavior.ok 1 "" "e", none⟩).raised = false := by
  refine ⟨rfl, by decide, by decide, by decide⟩

/-! ## Operation controller (DiskDefragmenterApp, lines 247-688)

The controller state is the operation-relevant part of the widget state:
the operation state (derived from which worker, if any, is live), the three
enablement flags `analyze_button` / `defrag_button` / `disk_combobox`, the
device list built by `populate_disks`, the combobox selection index and the
map-widget score.  Events are the user actions and the worker signals; the
user actions are gated by the Qt enablement of the widget they act on
(clicking a disabled button, or changing a disabled combobox, does
nothing).  Qt keeps `currentIndex` in `{-1} ∪ [0, count)`, which the
`select` event enforces.  Worker completion/error signals are connected
only to the single live worker, so they are gated by the matching
operation state.  `initCtrl` is the state after `initUI`/`populate_disks`
(line 341: analysis enabled iff some disk was listed, defragmentation
disabled, first item selected) followed by the initial
`on_disk_selection_changed` (line 343).
-/

inductive OpState where
  | idle
  | analyzing
  | defragging
deriving DecidableEq, Repr

structure Disk where
  path : String
  fstype : String
  mountpoint : String
deriving DecidableEq, Repr

structure Ctrl where
  op : OpState
  analyzeEnabled : Bool
  defragEnabled : Bool
  comboEnabled : Bool
  disks : List Disk
  sel : Int
  score : Int
deriving DecidableEq, Repr

/-- The selection-validity test of lines 489 / 521 / 612
(`selected_index == -1 or not self.disks or selected_index >= len(...)`),
returning the selected device when valid. -/
def selDisk (st : Ctrl) : Option Disk :=
  if st.sel = -1 ∨ st.disks.isEmpty ∨ (st.disks.length : Int) ≤ st.sel then none
  else st.disks.get? st.sel.toNat

/-- Filesystem type of the selected device, if any. -/
def selFstype (st : Ctrl) : Option String :=
  (selDisk st).map (fun d => d.fstype)

/-- `on_disk_selection_changed` (lines 483-517): reset score to -1 and set
the action enablement from the selected device's filesystem type. -/
def selectionChanged (st : Ctrl) : Ctrl :=
  match selDisk st with
  | none =>
    { st with score := -1, analyzeEnabled := false, defragEnabled := false }
  | some d =>
    if d.fstype = "ext4" then
      { st with score := -1, analyzeEnabled := true, defragEnabled := false }
    else
      { st with score := -1, analyzeEnabled := false, defragEnabled := false }

inductive Launch where
  | analysisTask (path : String)
  | defragTask (path : String)
deriving DecidableEq, Repr

/-- Body of `start_analysis` (lines 519-548), reached via the enabled
button: invalid selection or non-ext4 filesystem are rejected with a
warning; otherwise controls are disabled and the check worker is started. -/
def startAnalysisBody (st : Ctrl) : Ctrl × Option Launch :=
  match selDisk st with
  | none => (st, none)
  | some d =>
    if d.fstype ≠ "ext4" then (st, none)
    else ({ st with analyzeEnabled := false, defragEnabled := false,
                    comboEnabled := false, op := OpState.analyzing },
          some (Launch.analysisTask d.path))

/-- `display_defrag_score` (lines 550-586): re-enable controls; the defrag
button stays enabled for every recognised score bucket and is disabled in
the fallback branch (line 582), i.e. exactly for negative scores; the map
widget receives the score (line 586). -/
def displayScore (st : Ctrl) (score : Int) : Ctrl :=
  { st with analyzeEnabled := true, comboEnabled := true,
            defragEnabled := decide (0 ≤ score), score := score,
            op := OpState.idle }

/-- `display_defrag_check_error` (lines 588-608). -/
def displayCheckError (st : Ctrl) : Ctrl :=
  { st with analyzeEnabled := true, defragEnabled := false,
            comboEnabled := true, score := -1, op := OpState.idle }

/-- Body of `start_defrag` (lines 610-642), reached via the enabled button:
invalid selection or non-ext4 filesystem are rejected with a warning; a
declined confirmation dialog aborts; otherwise controls are disabled and
the defrag worker is started. -/
def startDefragBody (st : Ctrl) (confirm : Bool) : Ctrl × Option Launch :=
  match selDisk st with
  | none => (st, none)
  | some d =>
    if d.fstype ≠ "ext4" then (st, none)
    else if confirm then
      ({ st with defragEnabled := false, analyzeEnabled := false,
                 comboEnabled := false, op := OpState.defragging },
       some (Launch.defragTask d.path))
    else (st, none)

/-- `reset_ui` (lines 681-687): fixed enablement, worker handle dropped
(operation back to idle), then `on_disk_selection_changed`. -/
def resetUi (st : Ctrl) : Ctrl :=
  selectionChanged
    { st with defragEnabled := false, analyzeEnabled := true,
              comboEnabled := true, op := OpState.idle }

inductive Event where
  | select (i : Int)
  | pressAnalyze
  | analysisDone (score : Int)
  | analysisFailed
  | pressDefrag (confirm : Bool)
  | defragDone
  | defragFailed
  | widgetScore (v : Int)
deriving DecidableEq, Repr

/-- One controller step: the next state and the task launched, if any. -/
def stepL (st : Ctrl) (e : Event) : Ctrl × Option Launch :=
  match e with
  | Event.select i =>
    if st.comboEnabled ∧ (i = -1 ∨ (0 ≤ i ∧ i < (st.disks.length : Int))) then
      (selectionChanged { st with sel := i }, none)
    else (st, none)
  | Event.pressAnalyze =>
    if st.analyzeEnabled then startAnalysisBody st else (st, none)
  | Event.analysisDone score =>
    (if st.op = OpState.analyzing then displayScore st score else st, none)
  | Event.analysisFailed =>
    (if st.op = OpState.analyzing then displayCheckError st else st, none)
  | Event.pressDefrag confirm =>
    if st.defragEnabled then startDefragBody st confirm else (st, none)
  | Event.defragDone =>
    (if st.op = OpState.defragging then resetUi st else st, none)
  | Event.defragFailed =>
    (if st.op = OpState.defragging then resetUi st else st, none)
  | Event.widgetScore v =>
    ({ st with score := v }, none)

def step (st : Ctrl) (e : Event) : Ctrl := (stepL st e).1

/-- The state right after `initUI` (lines 341-343, 447-455): analysis
enabled iff the device list is non-empty, defragmentation disabled, the
combobox live with its first item (or nothing) selected, score unset, no
operation running; then the initial selection handler runs. -/
def initCtrl (disks : List Disk) : Ctrl :=
  selectionChanged
    { op := OpState.idle
      analyzeEnabled := !disks.isEmpty
      defragEnabled := false
      comboEnabled := true
      disks := disks
      sel := if disks.isEmpty then -1 else 0
      score := -1 }

/-- States reachable from some initial device list through controller steps. -/
inductive Reachable : Ctrl → Prop where
  | init (disks : List Disk) : Reachable (initCtrl disks)
  | next (st : Ctrl) (e : Event) : Reachable st → Reachable (step st e)

lemma selectionChanged_op (st : Ctrl) : (selectionChanged st).op = st.op := by
  unfold selectionChanged
  split
  · rfl
  · split <;> rfl

lemma selectionChanged_defrag (st : Ctrl) :
    (selectionChanged st).defragEnabled = false := by
  unfold selectionChanged
  split
  · rfl
  · split <;> rfl

/-- Invariant: whenever an operation is in flight, the defragmentation
trigger is disabled. -/
def defragGate (st : Ctrl) : Prop :=
  st.op ≠ OpState.idle → st.defragEnabled = false

lemma step_defragGate (st : Ctrl) (e : Event) (h : defragGate st) :
    defragGate (step st e) := by
  unfold defragGate at *
  cases e with
  | select i =>
    simp only [step, stepL]
    split
    · intro _
      exact selectionChanged_defrag _
    · exact h
  | pressAnalyze =>
    simp only [step, stepL]
    split
    · unfold startAnalysisBody
      split
      · exact h
      · split
        · exact h
        · intro _; rfl
    · exact h
  | analysisDone score =>
    simp only [step, stepL]
    split
    · intro hop
      exact absurd rfl hop
    · exact h
  | analysisFailed =>
    simp only [step, stepL]
    split
    · intro hop
      exact absurd rfl hop
    · exact h
  | pressDefrag confirm =>
    simp only [step, stepL]
    split
    · unfold startDefragBody
      split
      · exact h
      · split
        · exact h
        · split
          · intro _; rfl
          · exact h
    · exact h
  | defragDone =>
    simp only [step, stepL]
    split
    · intro _
      exact selectionChanged_defrag _
    · exact h
  | defragFailed =>
    simp only [step, stepL]
    split
    · intro _
      exact selectionChanged_defrag _
    · exact h
  | widgetScore v =>
    simp only [step, stepL]
    exact h

lemma initCtrl_op (disks : List Disk) : (initCtrl disks).op = OpState.idle := by
  unfold initCtrl
  rw [selectionChanged_op]

lemma reachable_defragGate (st : Ctrl) (h : Reachable st) : defragGate st := by
  induction h with
  | init disks =>
    intro hop
    exact absurd (initCtrl_op disks) hop
  | next st e _ ih => exact step_defragGate st e ih

/-- Claim C9: in every reachable controller state, a defragmentation request
made while an operation is in flight, or while the selected device's
filesystem type is not ext4, is a no-op: the state is unchanged and no task
is launched. -/
theorem start_defrag_noop_claim (st : Ctrl) (hr : Reachable st) (confirm : Bool)
    (h : st.op ≠ OpState.idle ∨ selFstype st ≠ some "ext4") :
    stepL st (Event.pressDefrag confirm) = (st, none) := by
  simp only [stepL]
  by_cases hd : st.defragEnabled = true
  · rcases h with hop | hfs
    · rw [reachable_defragGate st hr hop] at hd
      exact absurd hd (by simp)
    · rw [if_pos hd]
      unfold startDefragBody
      cases hsel : selDisk st with
      | none => rfl
      | some d =>
        have hne : d.fstype ≠ "ext4" := by
          intro heq
          apply hfs
          unfold selFstype
          rw [hsel]
          simp [heq]
        simp [hne]
  · rw [if_neg hd]

/-- Witness for C9: with a single NTFS device listed, pressing the
defragmentation button (even with confirmation) from the initial state
changes nothing and launches nothing. -/
theorem start_defrag_noop_claim_witness :
    stepL (initCtrl [⟨"/dev/sda2", "ntfs", "Yok"⟩]) (Event.pressDefrag true)
      = (initCtrl [⟨"/dev/sda2", "ntfs", "Yok"⟩], none) :=
  start_defrag_noop_claim (initCtrl [⟨"/dev/sda2", "ntfs", "Yok"⟩])
    (Reachable.init [⟨"/dev/sda2", "ntfs", "Yok"⟩]) true
    (Or.inr (by decide))
